import Mathlib

/-!
Shallow embedding of the similarity-search core of the cctv-rag-service
repository, together with theorems checking its natural-language
specification against the code.

Embedded source files:
- src/app/utils/vector_utils.py  (cosine_similarity, normalize_vector)
- src/app/rag_engine.py          (RAGEngine: _cosine_similarity, query,
                                  find_known_person)
- src/app/face_search.py         (FaceSearcher: find_known_faces_by_name,
                                  find_unknown_faces)
- src/app/utils.py               (to_jsonable)
- RAGEngine.search_by_photo is called from src/main.py but its definition is
  not present under src/; it is modelled from the spec (see below).

Modelling conventions:
- float32 values are modelled by exact rationals; a cosine-similarity value
  dot(a,b) / (‖a‖·‖b‖) is represented exactly by the pair
  `SimValue.mk n r` denoting the real number n / √r (with r > 0 in every
  value the code produces), since norms are square roots of rationals.
- NumPy division of 0 by 0 (the unguarded zero-norm case in
  RAGEngine._cosine_similarity) yields NaN; it is modelled as `none`.
  NumPy argsort places NaN after every number in ascending order, so the
  sort key of `none` is `⊤` in `WithTop ℚ`.
- np.argsort is modelled as the stable ascending index sort (ties broken by
  increasing index).  NumPy's sort is insertion sort — which is stable — for
  the short runs involved in every concrete input considered here.
- Python exceptions are modelled with `Except`.
-/

namespace CCTV

/-- Dot product of two rational vectors; `np.dot` on 1-D arrays.  The real
`np.dot` raises on unequal lengths; callers in this file either guard the
lengths or carry an explicit equal-length hypothesis. -/
def dot (a b : List ℚ) : ℚ := (List.zipWith (fun x y => x * y) a b).sum

/-- Squared Euclidean norm; `np.linalg.norm(v) ** 2`.  The norm itself is
`√(normSq v)`, and `np.linalg.norm v == 0` iff `normSq v = 0`. -/
def normSq (a : List ℚ) : ℚ := dot a a

/-- Exact representation of a similarity score: `SimValue.mk n r` denotes the
real number n / √r.  Every value produced by the embedded code has r > 0. -/
structure SimValue where
  num : ℚ
  radicand : ℚ
deriving DecidableEq, Repr

/-- Representation of the float 0.0 returned by the zero-norm guard:
0 / √1 = 0. -/
def SimValue.zero : SimValue := ⟨0, 1⟩

/-- Strictly monotone rational encoding of the real value n / √r (for r > 0):
sign(n) · n² / r.  Comparing keys compares the denoted real values. -/
def SimValue.key (v : SimValue) : ℚ :=
  if v.num < 0 then -(v.num ^ 2 / v.radicand) else v.num ^ 2 / v.radicand

/-- Error raised when vectors of unequal length are compared (`np.dot` raises
ValueError; the spec names this condition DimensionMismatch). -/
inductive VecError
  | DimensionMismatch
deriving DecidableEq, Repr

/-- Embedding of `cosine_similarity` from src/app/utils/vector_utils.py:
first the zero-norm guard returns 0.0, then `np.dot` raises on a length
mismatch, otherwise the score dot/(‖a‖·‖b‖) = dot/√(normSq a · normSq b)
is returned. -/
def cosine_similarity (vec1 vec2 : List ℚ) : Except VecError SimValue :=
  if normSq vec1 = 0 ∨ normSq vec2 = 0 then Except.ok SimValue.zero
  else if vec1.length = vec2.length then
    Except.ok ⟨dot vec1 vec2, normSq vec1 * normSq vec2⟩
  else Except.error VecError.DimensionMismatch

/-- Embedding of `normalize_vector` from src/app/utils/vector_utils.py:
the vector is returned unchanged when its norm is zero; otherwise each entry
is divided by the norm √(normSq v), represented exactly as the pair
(entry, normSq v) denoting entry / √(normSq v). -/
def normalize_vector (v : List ℚ) : List ℚ ⊕ List SimValue :=
  if normSq v = 0 then Sum.inl v
  else Sum.inr (v.map (fun x => ⟨x, normSq v⟩))

/-- Metadata record loaded by the engine (the fields of a face document that
src/app/rag_engine.py reads: `r.get("name")`, `r.get("camera_location")`,
`r.get("timestamp")`; `none` models an absent key). -/
structure FaceDoc where
  name : Option String
  camera_location : Option String
  timestamp : Option String
deriving DecidableEq, Repr

/-- In-memory state of a loaded RAGEngine (src/app/rag_engine.py): `texts`,
`vectors` and `metadata` as set up by `load_vectors`.  Claims quantify over
loaded engines, so `vectors` is a list rather than an optional. -/
structure RAGEngine where
  texts : List String
  vectors : List (List ℚ)
  metadata : List FaceDoc
deriving Repr

namespace RAGEngine

/-- Embedding of `RAGEngine._cosine_similarity`: for each stored row the code
computes dot(row, q) / (‖row‖·‖q‖) with NO zero-norm guard.  When the
denominator is zero the dot product is also zero (one vector is all zeros),
so NumPy produces 0/0 = NaN, modelled `none`. -/
def cosineSimilarityInternal (e : RAGEngine) (q : List ℚ) : List (Option SimValue) :=
  e.vectors.map (fun row =>
    if normSq row * normSq q = 0 then none
    else some ⟨dot row q, normSq row * normSq q⟩)

end RAGEngine

/-- Sort key of a similarity entry: NaN (`none`) sorts after every number in
NumPy's ascending argsort, hence `⊤`. -/
def simKey : Option SimValue → WithTop ℚ
  | none => ⊤
  | some v => (v.key : WithTop ℚ)

/-- Comparison used to model `np.argsort` on the key list `ks`: index `i`
precedes index `j` when its key is smaller, or keys are equal and `i ≤ j`
(stable tie-break by original position). -/
def argLe (ks : List (WithTop ℚ)) (i j : ℕ) : Prop :=
  ks.getD i ⊤ < ks.getD j ⊤ ∨ (ks.getD i ⊤ = ks.getD j ⊤ ∧ i ≤ j)

instance (ks : List (WithTop ℚ)) : DecidableRel (argLe ks) := fun i j => by
  unfold argLe; infer_instance

instance (ks : List (WithTop ℚ)) : IsTotal ℕ (argLe ks) := by
  constructor
  intro i j
  rcases lt_trichotomy (ks.getD i ⊤) (ks.getD j ⊤) with h | h | h
  · exact Or.inl (Or.inl h)
  · rcases Nat.le_total i j with hij | hij
    · exact Or.inl (Or.inr ⟨h, hij⟩)
    · exact Or.inr (Or.inr ⟨h.symm, hij⟩)
  · exact Or.inr (Or.inl h)

instance (ks : List (WithTop ℚ)) : IsTrans ℕ (argLe ks) := by
  constructor
  intro i j k hij hjk
  rcases hij with h1 | ⟨e1, le1⟩
  · rcases hjk with h2 | ⟨e2, _⟩
    · exact Or.inl (h1.trans h2)
    · exact Or.inl (e2 ▸ h1)
  · rcases hjk with h2 | ⟨e2, le2⟩
    · exact Or.inl (e1 ▸ h2)
    · exact Or.inr ⟨e1.trans e2, le1.trans le2⟩

/-- Model of `np.argsort(keys)`: the indices 0..n-1 sorted ascending by key,
stably (equal keys keep their original relative order). -/
def argsort (ks : List (WithTop ℚ)) : List ℕ :=
  List.insertionSort (argLe ks) (List.range ks.length)

/-- Python slice `l[:k]` for an arbitrary integer bound `k`: a nonnegative
`k` takes the first min(k, len) elements; a negative `k` stops `-k` elements
before the end (empty when -k ≥ len). -/
def pySliceTake {α : Type} (k : ℤ) (l : List α) : List α :=
  if 0 ≤ k then l.take k.toNat else l.take (l.length - (-k).toNat)

/-- Shape of one entry of the list returned by `RAGEngine.query`:
the dict `\x7b"text", "score", "metadata"\x7d` built at
src/app/rag_engine.py lines 101-108. -/
structure QueryResult where
  text : String
  score : Option SimValue
  metadata : FaceDoc
deriving DecidableEq, Repr

namespace RAGEngine

/-- Embedding of `RAGEngine.query`: similarities against every stored vector,
`np.argsort(similarity)[::-1][:top_k]`, then the text/score/metadata record
for each selected index.  Indices always lie below `vectors.length`; `getD`
supplies defaults that are never reached when, as after `load_vectors`,
`texts` and `metadata` are at least as long as `vectors`. -/
def query (e : RAGEngine) (q : List ℚ) (top_k : ℤ) : List QueryResult :=
  let sims := e.cosineSimilarityInternal q
  let keys := sims.map simKey
  let top := pySliceTake top_k (argsort keys).reverse
  top.map (fun idx =>
    { text := e.texts.getD idx ""
      score := sims.getD idx none
      metadata := e.metadata.getD idx ⟨none, none, none⟩ })

/-- Embedding of `RAGEngine.find_known_person`: raises ValueError when no
metadata is loaded, otherwise filters records whose "name" equals `name`
(`r.get("name") == name`, absent key never equal). -/
def find_known_person (e : RAGEngine) (name : String) :
    Except String (List FaceDoc) :=
  if e.metadata.isEmpty then Except.error "No data loaded. Load vectors first."
  else Except.ok (e.metadata.filter (fun r => decide (r.name = some name)))

end RAGEngine

/-- Value stored in the loosely-typed `matched_persons` field of a Mongo face
document: absent, an array of name strings, or a mistyped non-list value
(modelled concretely as an integer). -/
inductive MPField
  | absent
  | strs (names : List String)
  | intVal (n : ℤ)
deriving DecidableEq, Repr

/-- Mongo face document restricted to the fields src/app/face_search.py
reads, with a WELL-TYPED `face_count` (absent or an integer); `none` models
an absent field.  This restriction serves the claims that quantify only
over integer face counts; `FSDocRaw` below is the loosely-typed model on
which a mistyped `face_count` is representable.  The projection dropping
binary fields (data/embedding/image) does not affect these fields and is
not modelled. -/
structure FSDoc where
  filename : Option String
  has_faces : Option Bool
  face_count : Option ℤ
  matched_persons : MPField
deriving DecidableEq, Repr

/-- MongoDB match semantics of the find query
`\x7b"matched_persons": \x7b"$in": [name]\x7d\x7d`: an array field matches
when it contains `name`; a scalar field matches when it equals `name`
(an integer never does); an absent field never matches. -/
def mongoInMatch (f : MPField) (name : String) : Bool :=
  match f with
  | .strs l => decide (name ∈ l)
  | _ => false

namespace FaceSearcher

/-- Embedding of `FaceSearcher.find_known_faces_by_name`: the documents of
the faces collection (modelled as the list snapshot the cursor yields)
matching the `$in` query, with no further processing. -/
def find_known_faces_by_name (faces : List FSDoc) (name : String) : List FSDoc :=
  faces.filter (fun d => mongoInMatch d.matched_persons name)

/-- Embedding of `doc.get("face_count", 0)` in `find_unknown_faces`. -/
def faceCount (d : FSDoc) : ℤ := d.face_count.getD 0

/-- Embedding of
`matched_count = len(matched) if isinstance(matched, list) else 0` with
`matched = doc.get("matched_persons", [])` in `find_unknown_faces`. -/
def matchedCount (d : FSDoc) : ℕ :=
  match d.matched_persons with
  | .strs l => l.length
  | _ => 0

/-- The spec names the comparison at src/app/face_search.py line 71 as
`is_unknown(face_count, matched_persons)`: the record still holds
unidentified faces when `face_count` exceeds the number of matched labels. -/
def is_unknown (face_count : ℤ) (matched_persons : List String) : Bool :=
  decide ((matched_persons.length : ℤ) < face_count)

/-- Embedding of `FaceSearcher.find_unknown_faces`: the Mongo query keeps
documents with `has_faces == True`, then the Python loop keeps those with
`face_count > matched_count`. -/
def find_unknown_faces (faces : List FSDoc) : List FSDoc :=
  (faces.filter (fun d => d.has_faces == some true)).filter
    (fun d => decide ((matchedCount d : ℤ) < faceCount d))

end FaceSearcher

/-- Value stored in the loosely-typed `face_count` field of a Mongo face
document: absent, an integer, or a mistyped non-integer value (modelled
concretely as a string; a null or list value behaves the same at the
comparison, raising TypeError when ordered against an int). -/
inductive FCField
  | absent
  | intVal (n : ℤ)
  | strVal (s : String)
deriving DecidableEq, Repr

/-- Errors the Python loop in `find_unknown_faces` can raise. -/
inductive PyError
  | typeError
deriving DecidableEq, Repr

/-- Loosely-typed Mongo face document: like `FSDoc` but with the
`face_count` field able to hold a mistyped value, as arbitrary stored
documents can. -/
structure FSDocRaw where
  filename : Option String
  has_faces : Option Bool
  face_count : FCField
  matched_persons : MPField
deriving DecidableEq, Repr

/-- Embedding of
`matched_count = len(matched) if isinstance(matched, list) else 0` with
`matched = doc.get("matched_persons", [])`, on the loosely-typed
document. -/
def matchedCountRaw (d : FSDocRaw) : ℕ :=
  match d.matched_persons with
  | .strs l => l.length
  | _ => 0

/-- Python 3 semantics of `face_count > matched_count` where `face_count`
is `doc.get("face_count", 0)` (default int 0 when absent) and
`matched_count` is an int: int against int compares, a non-integer value
against an int raises TypeError. -/
def pyGtCount : FCField → ℕ → Except PyError Bool
  | FCField.absent, mc => Except.ok (decide ((mc : ℤ) < 0))
  | FCField.intVal n, mc => Except.ok (decide ((mc : ℤ) < n))
  | FCField.strVal _, _ => Except.error PyError.typeError

namespace FaceSearcher

/-- Embedding of the Python `for doc in results:` loop body of
`find_unknown_faces` (src/app/face_search.py lines 66-72): documents are
tested in order, a passing document is appended, and the first document
whose `face_count` comparison raises aborts the loop with that error. -/
def unknownLoop : List FSDocRaw → Except PyError (List FSDocRaw)
  | [] => Except.ok []
  | d :: rest =>
    match pyGtCount d.face_count (matchedCountRaw d) with
    | Except.error e => Except.error e
    | Except.ok true =>
      match unknownLoop rest with
      | Except.error e => Except.error e
      | Except.ok l => Except.ok (d :: l)
    | Except.ok false => unknownLoop rest

/-- Embedding of `FaceSearcher.find_unknown_faces` on loosely-typed
documents: the Mongo query keeps documents with `has_faces == True`, then
the Python loop runs — returning the unknown documents, or the TypeError a
mistyped `face_count` raises. -/
def find_unknown_faces_raw (faces : List FSDocRaw) :
    Except PyError (List FSDocRaw) :=
  unknownLoop (faces.filter (fun d => d.has_faces == some true))

end FaceSearcher

/-- Observation record used by the spec-modelled photo search: a corpus
entry with an embedding. -/
structure ObsRecord where
  filename : String
  embedding : List ℚ
deriving DecidableEq, Repr

/-- Collaborator calls observable during a photo search, used to express
that a code path invokes neither the embedder nor the store. -/
inductive CallEvent
  | embedCall
  | storeCall
deriving DecidableEq, Repr

/-- External collaborators of the photo search: the opaque embedder and the
store snapshot. -/
structure Collabs where
  embed : List ℕ → List ℚ
  fetchObservations : List ObsRecord

/-- Strictly monotone rational encoding of a rational threshold `t` on the
same scale as `SimValue.key`: sign(t) · t². -/
def qKey (t : ℚ) : ℚ := if t < 0 then -(t ^ 2) else t ^ 2

/-- Modelled from the spec: `RAGEngine.search_by_photo` is absent from src/
(only its caller `find_person_from_photo` in src/main.py remains).  Per spec
§4.4 it derives a query vector via the external embedder, then returns every
corpus record whose similarity to the query is ≥ threshold, annotated with
its score, in corpus iteration order; empty `image_bytes` short-circuits to
an empty list without invoking the embedder.  Records whose similarity is
undefined are skipped per the spec's partial-failure policy (§7).  The
second component is the trace of collaborator calls performed. -/
def search_by_photo (c : Collabs) (image_bytes : List ℕ) (threshold : ℚ) :
    List (ObsRecord × SimValue) × List CallEvent :=
  if image_bytes.isEmpty then ([], [])
  else
    let q := c.embed image_bytes
    let corpus := c.fetchObservations
    (corpus.filterMap (fun r =>
        match cosine_similarity r.embedding q with
        | Except.ok s => if qKey threshold ≤ s.key then some (r, s) else none
        | Except.error _ => none),
      [CallEvent.embedCall, CallEvent.storeCall])

/-- Python value reaching `to_jsonable` (src/app/utils.py): the shapes the
function distinguishes — lists, dicts (association lists, preserving
Python's insertion order), ObjectId (carrying its string form), bytes,
datetime (carrying its `isoformat()` string), and pass-through scalars. -/
inductive PyVal
  | list (items : List PyVal)
  | dict (entries : List (String × PyVal))
  | objectId (s : String)
  | bytes (b : List ℕ)
  | datetime (iso : String)
  | str (s : String)
  | int (n : ℤ)
  | bool (b : Bool)
  | null

/-- Standard base64 alphabet. -/
def base64Chars : List Char :=
  "ABCDEFGHIJKLMNOPQRSTUVWXYZabcdefghijklmnopqrstuvwxyz0123456789+/".toList

/-- Character for the 6-bit value `n` (0 ≤ n < 64). -/
def b64Char (n : ℕ) : Char := base64Chars.getD n '='

/-- Base64 encoding of a byte list, 3 bytes to 4 characters with '='
padding, as produced by Python's `base64.b64encode`. -/
def base64EncodeChars : List ℕ → List Char
  | [] => []
  | [b1] => [b64Char (b1 / 4), b64Char (b1 % 4 * 16), '=', '=']
  | [b1, b2] =>
      [b64Char (b1 / 4), b64Char (b1 % 4 * 16 + b2 / 16), b64Char (b2 % 16 * 4), '=']
  | b1 :: b2 :: b3 :: rest =>
      b64Char (b1 / 4) :: b64Char (b1 % 4 * 16 + b2 / 16) ::
        b64Char (b2 % 16 * 4 + b3 / 64) :: b64Char (b3 % 64) ::
          base64EncodeChars rest

/-- Base64 string of a byte list; `base64.b64encode(data).decode("utf-8")`. -/
def base64Encode (bs : List ℕ) : String := String.mk (base64EncodeChars bs)

/-- Embedding of `to_jsonable` from src/app/utils.py: lists and dicts map
recursively, ObjectId becomes `str(data)`, bytes become the base64 string,
datetime becomes `data.isoformat()`, everything else is returned
unchanged. -/
def to_jsonable : PyVal → PyVal
  | .list items => .list (items.attach.map (fun x => to_jsonable x.val))
  | .dict entries =>
      .dict (entries.attach.map (fun x => (x.val.1, to_jsonable x.val.2)))
  | .objectId s => .str s
  | .bytes b => .str (base64Encode b)
  | .datetime iso => .str iso
  | .str s => .str s
  | .int n => .int n
  | .bool b => .bool b
  | .null => .null
decreasing_by
  · have h := List.sizeOf_lt_of_mem x.property
    simp only [PyVal.list.sizeOf_spec]
    omega
  · have h := List.sizeOf_lt_of_mem x.property
    have h2 : sizeOf x.val.2 < sizeOf x.val := by
      obtain ⟨a, b⟩ := x.val
      simp
    simp only [PyVal.dict.sizeOf_spec]
    omega

/-! Helper lemmas about the embedded operations. -/

theorem dot_cons (x y : ℚ) (a b : List ℚ) :
    dot (x :: a) (y :: b) = x * y + dot a b := by
  simp [dot]

theorem dot_comm (a b : List ℚ) : dot a b = dot b a := by
  unfold dot
  rw [List.zipWith_comm_of_comm _ (fun x y => mul_comm x y)]

theorem argsort_perm (ks : List (WithTop ℚ)) :
    (argsort ks).Perm (List.range ks.length) :=
  List.perm_insertionSort _ _

theorem argsort_length (ks : List (WithTop ℚ)) :
    (argsort ks).length = ks.length := by
  rw [(argsort_perm ks).length_eq, List.length_range]

theorem argsort_sorted (ks : List (WithTop ℚ)) :
    List.Sorted (argLe ks) (argsort ks) :=
  List.sorted_insertionSort _ _

theorem mem_argsort (ks : List (WithTop ℚ)) (i : ℕ) (hi : i < ks.length) :
    i ∈ argsort ks :=
  (argsort_perm ks).mem_iff.mpr (List.mem_range.mpr hi)

theorem length_pySliceTake {α : Type} (k : ℤ) (l : List α) :
    (pySliceTake k l).length =
      if 0 ≤ k then min k.toNat l.length else l.length - (-k).toNat := by
  unfold pySliceTake
  split
  · simp [List.length_take]
  · simp only [List.length_take]
    omega

theorem pySliceTake_sublist {α : Type} (k : ℤ) (l : List α) :
    (pySliceTake k l).Sublist l := by
  unfold pySliceTake
  split <;> exact List.take_sublist _ _

theorem getD_map_simKey (sims : List (Option SimValue)) (i : ℕ) :
    (sims.map simKey).getD i ⊤ = simKey (sims.getD i none) := by
  induction sims generalizing i with
  | nil => simp [simKey]
  | cons a t ih =>
    cases i with
    | zero => simp
    | succ m => simpa using ih m

theorem getD_map_of_lt {α β : Type} (f : α → β) (l : List α) (i : ℕ)
    (hi : i < l.length) (d : α) (e : β) :
    (l.map f).getD i e = f (l.getD i d) := by
  induction l generalizing i with
  | nil => simp at hi
  | cons a t ih =>
    cases i with
    | zero => simp
    | succ m =>
      simp only [List.length_cons, Nat.succ_lt_succ_iff] at hi
      simpa using ih m hi

theorem argLe_not_symm_of_lt (ks : List (WithTop ℚ)) (i j : ℕ)
    (hij : i < j) (hkey : ks.getD i ⊤ = ks.getD j ⊤) : ¬ argLe ks j i := by
  intro h
  rcases h with h | ⟨_, hle⟩
  · rw [hkey] at h
    exact lt_irrefl _ h
  · omega

theorem pairwise_indexOf_lt {R : ℕ → ℕ → Prop} :
    ∀ l : List ℕ, l.Pairwise R → ∀ a b : ℕ, a ∈ l → b ∈ l → a ≠ b →
      ¬ R b a → l.indexOf a < l.indexOf b
  | [], _, a, _, ha, _, _, _ => absurd ha (List.not_mem_nil a)
  | c :: rest, hp, a, b, ha, hb, hab, hnR => by
    rcases List.pairwise_cons.mp hp with ⟨hc, hrest⟩
    by_cases hac : a = c
    · subst hac
      have hbrest : b ∈ rest := by
        rcases List.mem_cons.mp hb with h | h
        · exact absurd h.symm hab
        · exact h
      rw [List.indexOf_cons_self, List.indexOf_cons_ne _ hab]
      exact Nat.succ_pos _
    · have harest : a ∈ rest := by
        rcases List.mem_cons.mp ha with h | h
        · exact absurd h hac
        · exact h
      by_cases hbc : b = c
      · subst hbc
        exact absurd (hc a harest) hnR
      · have hbrest : b ∈ rest := by
          rcases List.mem_cons.mp hb with h | h
          · exact absurd h hbc
          · exact h
        rw [List.indexOf_cons_ne _ (fun h => hac h.symm),
          List.indexOf_cons_ne _ (fun h => hbc h.symm)]
        exact Nat.succ_lt_succ (pairwise_indexOf_lt rest hrest a b harest hbrest hab hnR)

/-- Loaded engine with two one-dimensional embeddings, used as a concrete
input for the ranked-search claims. -/
def exEngineA : RAGEngine :=
  ⟨["t0", "t1"], [[1], [2]],
    [⟨some "a", none, none⟩, ⟨some "b", none, none⟩]⟩

/-- Loaded engine whose two embeddings tie in similarity against the query
[1], used as a concrete input for the tie-breaking claims. -/
def exEngineB : RAGEngine :=
  ⟨["t0", "t1"], [[1], [1]],
    [⟨some "first", none, none⟩, ⟨some "second", none, none⟩]⟩

/-- C1 counterexample: the claim says every `top_k ≤ 0` returns the empty
list, but Python's slice `[:top_k]` keeps `len + top_k` elements for a
negative `top_k`; on the two-record corpus `exEngineA`, `top_k = -1`
returns one result, not zero. -/
theorem rag_query_negative_topk_not_empty :
    (-1 : ℤ) ≤ 0 ∧ exEngineA.query [1] (-1) ≠ [] := by
  have hsims : exEngineA.cosineSimilarityInternal [1]
      = [some ⟨1, 1⟩, some ⟨2, 4⟩] := by
    norm_num [RAGEngine.cosineSimilarityInternal, exEngineA, normSq, dot]
  have hkeys : ([some ⟨1, 1⟩, some ⟨2, 4⟩] : List (Option SimValue)).map simKey
      = [((1 : ℚ) : WithTop ℚ), ((1 : ℚ) : WithTop ℚ)] := by
    norm_num [simKey, SimValue.key]
  refine ⟨by decide, ?_⟩
  rw [RAGEngine.query, hsims, hkeys]
  decide

/-- C1 as amended: `RAGEngine.query` returns `min(top_k, n)` results for
`top_k ≥ 0` and `max(n + top_k, 0)` results for negative `top_k` (Python
slice semantics), always sorted non-increasing by similarity score (scores
compared through the exact key encoding, NaN greatest, as NumPy's ascending
argsort places NaN last). -/
theorem rag_query_topk (e : RAGEngine) (q : List ℚ) (k : ℤ)
    (_hdim : ∀ v ∈ e.vectors, v.length = q.length) :
    ((0 ≤ k → (e.query q k).length = min k.toNat e.vectors.length)
      ∧ (k < 0 → (e.query q k).length = e.vectors.length - (-k).toNat))
    ∧ List.Sorted (fun x y => y ≤ x)
        ((e.query q k).map (fun r => simKey r.score)) := by
  simp only [RAGEngine.query]
  refine ⟨⟨fun hk => ?_, fun hk => ?_⟩, ?_⟩
  · rw [List.length_map, length_pySliceTake, if_pos hk, List.length_reverse,
      argsort_length, List.length_map, RAGEngine.cosineSimilarityInternal,
      List.length_map]
  · rw [List.length_map, length_pySliceTake, if_neg (not_le.mpr hk),
      List.length_reverse, argsort_length, List.length_map,
      RAGEngine.cosineSimilarityInternal, List.length_map]
  · have hrev : ((argsort ((e.cosineSimilarityInternal q).map simKey)).reverse).Pairwise
        (fun a b => argLe ((e.cosineSimilarityInternal q).map simKey) b a) :=
      List.pairwise_reverse.mpr
        (argsort_sorted ((e.cosineSimilarityInternal q).map simKey))
    have hsub := hrev.sublist
      (pySliceTake_sublist k ((argsort ((e.cosineSimilarityInternal q).map simKey)).reverse))
    rw [List.map_map]
    refine hsub.map _ ?_
    intro a b hab
    show simKey ((e.cosineSimilarityInternal q).getD b none)
      ≤ simKey ((e.cosineSimilarityInternal q).getD a none)
    rw [← getD_map_simKey, ← getD_map_simKey]
    rcases hab with h | ⟨h, _⟩
    · exact le_of_lt h
    · exact le_of_eq h

/-- Witness for `rag_query_topk` at the concrete engine `exEngineA`,
query [1] and `top_k = 2`. -/
theorem rag_query_topk_witness :
    (∀ v ∈ exEngineA.vectors, v.length = ([(1 : ℚ)] : List ℚ).length)
    ∧ (((0 ≤ (2 : ℤ) →
          (exEngineA.query [1] 2).length = min (2 : ℤ).toNat exEngineA.vectors.length)
        ∧ ((2 : ℤ) < 0 →
            (exEngineA.query [1] 2).length = exEngineA.vectors.length - (-(2 : ℤ)).toNat))
      ∧ List.Sorted (fun x y => y ≤ x)
          ((exEngineA.query [1] 2).map (fun r => simKey r.score))) :=
  ⟨by decide, rag_query_topk exEngineA [1] 2 (by decide)⟩

/-- C5 counterexample: on `exEngineB` both records tie at similarity 1
against the query [1], and the returned list carries the SECOND corpus
record first — the later-seen record wins, not the first-seen one the claim
states. -/
theorem rag_query_tie_counterexample :
    exEngineB.cosineSimilarityInternal [1] = [some ⟨1, 1⟩, some ⟨1, 1⟩]
    ∧ (exEngineB.query [1] 5).map (fun r => r.metadata)
        = [⟨some "second", none, none⟩, ⟨some "first", none, none⟩] := by
  have hsims : exEngineB.cosineSimilarityInternal [1]
      = [some ⟨1, 1⟩, some ⟨1, 1⟩] := by
    norm_num [RAGEngine.cosineSimilarityInternal, exEngineB, normSq, dot]
  have hkeys : ([some ⟨1, 1⟩, some ⟨1, 1⟩] : List (Option SimValue)).map simKey
      = [((1 : ℚ) : WithTop ℚ), ((1 : ℚ) : WithTop ℚ)] := by
    norm_num [simKey, SimValue.key]
  refine ⟨hsims, ?_⟩
  rw [RAGEngine.query, hsims, hkeys]
  decide

/-- C5 as amended: when two corpus positions i < j tie in similarity score,
the ranked order produced by `np.argsort(similarity)[::-1]` (argsort
modelled stable ascending, as NumPy sorts these short runs with a stable
insertion sort) lists position j BEFORE position i: ties go to the
later-seen record, the reverse of the claimed first-seen-wins order. -/
theorem rag_query_tie_reverse_order (e : RAGEngine) (q : List ℚ) (i j : ℕ)
    (hij : i < j) (hj : j < e.vectors.length)
    (hkey : simKey ((e.cosineSimilarityInternal q).getD i none)
        = simKey ((e.cosineSimilarityInternal q).getD j none)) :
    ((argsort ((e.cosineSimilarityInternal q).map simKey)).reverse).indexOf j
      < ((argsort ((e.cosineSimilarityInternal q).map simKey)).reverse).indexOf i := by
  have hklen : ((e.cosineSimilarityInternal q).map simKey).length = e.vectors.length := by
    rw [List.length_map, RAGEngine.cosineSimilarityInternal, List.length_map]
  have hkij : ((e.cosineSimilarityInternal q).map simKey).getD i ⊤
      = ((e.cosineSimilarityInternal q).map simKey).getD j ⊤ := by
    rw [getD_map_simKey, getD_map_simKey, hkey]
  have hmemi : i ∈ (argsort ((e.cosineSimilarityInternal q).map simKey)).reverse := by
    rw [List.mem_reverse]
    exact mem_argsort _ _ (by omega)
  have hmemj : j ∈ (argsort ((e.cosineSimilarityInternal q).map simKey)).reverse := by
    rw [List.mem_reverse]
    exact mem_argsort _ _ (by omega)
  have hrev : ((argsort ((e.cosineSimilarityInternal q).map simKey)).reverse).Pairwise
      (fun a b => argLe ((e.cosineSimilarityInternal q).map simKey) b a) :=
    List.pairwise_reverse.mpr (argsort_sorted _)
  exact pairwise_indexOf_lt _ hrev j i hmemj hmemi (by omega)
    (argLe_not_symm_of_lt _ i j hij hkij)

/-- Witness for `rag_query_tie_reverse_order` at `exEngineB`, query [1],
tied positions 0 and 1. -/
theorem rag_query_tie_reverse_order_witness :
    (0 : ℕ) < 1 ∧ 1 < exEngineB.vectors.length
    ∧ simKey ((exEngineB.cosineSimilarityInternal [1]).getD 0 none)
        = simKey ((exEngineB.cosineSimilarityInternal [1]).getD 1 none)
    ∧ ((argsort ((exEngineB.cosineSimilarityInternal [1]).map simKey)).reverse).indexOf 1
        < ((argsort ((exEngineB.cosineSimilarityInternal [1]).map simKey)).reverse).indexOf 0 := by
  have hkey : simKey ((exEngineB.cosineSimilarityInternal [1]).getD 0 none)
      = simKey ((exEngineB.cosineSimilarityInternal [1]).getD 1 none) := by
    norm_num [RAGEngine.cosineSimilarityInternal, exEngineB, normSq, dot]
  exact ⟨by decide, by decide, hkey,
    rag_query_tie_reverse_order exEngineB [1] 0 1 (by decide) (by decide) hkey⟩

/-- Loaded engine with a single nonzero embedding, used with a zero query
vector for the zero-norm claims. -/
def exEngineZ : RAGEngine := ⟨["t"], [[1]], [⟨none, none, none⟩]⟩

/-- C2 counterexample: the claim extends the zero-norm contract to
`RAGEngine._cosine_similarity`, but that method has no zero-norm guard; on
the one-record engine `exEngineZ` and the zero query vector the division is
0/0, NumPy NaN (modelled `none`), not the float 0.0. -/
theorem engine_zero_norm_is_nan :
    exEngineZ.cosineSimilarityInternal [0] = [none]
    ∧ (none : Option SimValue) ≠ some SimValue.zero := by
  refine ⟨?_, by decide⟩
  norm_num [RAGEngine.cosineSimilarityInternal, exEngineZ, normSq, dot]

/-- C2 as amended: the standalone `cosine_similarity` returns exactly 0.0
when either vector has zero norm (no exception), while the per-corpus
computation `RAGEngine._cosine_similarity` produces a NaN entry (modelled
`none`) whenever a stored row or the query has zero norm. -/
theorem cosine_zero_norm_behavior :
    (∀ a b : List ℚ, normSq a = 0 ∨ normSq b = 0 →
      cosine_similarity a b = Except.ok SimValue.zero)
    ∧ (∀ (e : RAGEngine) (q : List ℚ) (i : ℕ), i < e.vectors.length →
        normSq (e.vectors.getD i []) * normSq q = 0 →
        (e.cosineSimilarityInternal q).getD i none = none) := by
  constructor
  · intro a b h
    unfold cosine_similarity
    rw [if_pos h]
  · intro e q i hi h
    unfold RAGEngine.cosineSimilarityInternal
    rw [getD_map_of_lt _ _ _ hi []]
    rw [if_pos h]

/-- Witness for `cosine_zero_norm_behavior`: the zero vector [0] against [1]
for the standalone function, and the engine `exEngineZ` with zero query. -/
theorem cosine_zero_norm_behavior_witness :
    (normSq [0] = 0 ∨ normSq [(1 : ℚ)] = 0)
    ∧ cosine_similarity [0] [1] = Except.ok SimValue.zero
    ∧ (0 < exEngineZ.vectors.length
        ∧ normSq (exEngineZ.vectors.getD 0 []) * normSq [0] = 0)
    ∧ (exEngineZ.cosineSimilarityInternal [0]).getD 0 none = none := by
  have h1 : normSq [(0 : ℚ)] = 0 := by norm_num [normSq, dot]
  have h2 : normSq (exEngineZ.vectors.getD 0 []) * normSq [(0 : ℚ)] = 0 := by
    norm_num [exEngineZ, normSq, dot]
  exact ⟨Or.inl h1, cosine_zero_norm_behavior.1 [0] [1] (Or.inl h1),
    ⟨by decide, h2⟩, cosine_zero_norm_behavior.2 exEngineZ [0] 0 (by decide) h2⟩

/-- Engine with no loaded records, used for the empty-corpus claims. -/
def emptyEngine : RAGEngine := ⟨[], [], []⟩

/-- Engine whose only record names Bob, used for unknown-name searches. -/
def exEngineK : RAGEngine := ⟨["t"], [[1]], [⟨some "Bob", none, none⟩]⟩

/-- Face document whose only matched person is Bob, used for unknown-name
searches against the Mongo-backed search path. -/
def exDocBob : FSDoc := ⟨some "f.jpg", some true, some 1, MPField.strs ["Bob"]⟩

/-- C3 counterexample: the claim says an empty corpus yields an empty result
list and no error, but `RAGEngine.find_known_person` raises ValueError when
no metadata is loaded. -/
theorem find_known_person_empty_raises :
    emptyEngine.find_known_person "Alice"
        = Except.error "No data loaded. Load vectors first."
    ∧ emptyEngine.find_known_person "Alice" ≠ Except.ok [] := by
  refine ⟨rfl, ?_⟩
  simp [RAGEngine.find_known_person, emptyEngine]

/-- C3 as amended: `FaceSearcher.find_known_faces_by_name` returns an empty
list both on an empty collection and for a name no document matches, without
error; `RAGEngine.find_known_person` returns an empty list for an unknown
name only when metadata is loaded, and raises ValueError on an empty
corpus. -/
theorem known_name_search_empty_results :
    (∀ name : String, FaceSearcher.find_known_faces_by_name [] name = [])
    ∧ (∀ (docs : List FSDoc) (name : String),
        (∀ d ∈ docs, mongoInMatch d.matched_persons name = false) →
        FaceSearcher.find_known_faces_by_name docs name = [])
    ∧ (∀ (e : RAGEngine) (name : String), ¬ e.metadata.isEmpty →
        (∀ d ∈ e.metadata, d.name ≠ some name) →
        e.find_known_person name = Except.ok [])
    ∧ (∀ (e : RAGEngine) (name : String), e.metadata.isEmpty →
        e.find_known_person name
          = Except.error "No data loaded. Load vectors first.") := by
  refine ⟨fun name => rfl, fun docs name h => ?_, fun e name hne h => ?_, fun e name he => ?_⟩
  · exact List.filter_eq_nil_iff.mpr (fun d hd => by simp [h d hd])
  · unfold RAGEngine.find_known_person
    rw [if_neg hne]
    congr 1
    exact List.filter_eq_nil_iff.mpr (fun d hd => by simp [h d hd])
  · unfold RAGEngine.find_known_person
    rw [if_pos he]

/-- Witness for `known_name_search_empty_results`: the name Alice against
the document list [exDocBob], the engine `exEngineK` and `emptyEngine`. -/
theorem known_name_search_empty_results_witness :
    FaceSearcher.find_known_faces_by_name [] "Alice" = []
    ∧ ((∀ d ∈ [exDocBob], mongoInMatch d.matched_persons "Alice" = false)
        ∧ FaceSearcher.find_known_faces_by_name [exDocBob] "Alice" = [])
    ∧ ((¬ exEngineK.metadata.isEmpty ∧ ∀ d ∈ exEngineK.metadata, d.name ≠ some "Alice")
        ∧ exEngineK.find_known_person "Alice" = Except.ok [])
    ∧ (emptyEngine.metadata.isEmpty
        ∧ emptyEngine.find_known_person "Alice"
            = Except.error "No data loaded. Load vectors first.") :=
  ⟨known_name_search_empty_results.1 "Alice",
    ⟨by decide, known_name_search_empty_results.2.1 [exDocBob] "Alice" (by decide)⟩,
    ⟨⟨by decide, by decide⟩,
      known_name_search_empty_results.2.2.1 exEngineK "Alice" (by decide) (by decide)⟩,
    ⟨by decide, known_name_search_empty_results.2.2.2 emptyEngine "Alice" (by decide)⟩⟩

/-- C4: `is_unknown` is a total Boolean function returning true exactly when
`face_count` strictly exceeds the number of matched labels; a matched set at
least as large as `face_count` yields false, never an error; and membership
in `find_unknown_faces` is exactly the `has_faces` filter plus this
comparison of the defaulted document fields. -/
theorem is_unknown_total (fc : ℤ) (mp : List String) (_hfc : 0 ≤ fc) :
    (FaceSearcher.is_unknown fc mp = true ↔ (mp.length : ℤ) < fc)
    ∧ (fc ≤ (mp.length : ℤ) → FaceSearcher.is_unknown fc mp = false)
    ∧ (∀ (docs : List FSDoc) (d : FSDoc),
        d ∈ FaceSearcher.find_unknown_faces docs ↔
          d ∈ docs ∧ d.has_faces = some true
            ∧ (FaceSearcher.matchedCount d : ℤ) < FaceSearcher.faceCount d) := by
  refine ⟨by simp [FaceSearcher.is_unknown], fun h => ?_, fun docs d => ?_⟩
  · simp only [FaceSearcher.is_unknown, decide_eq_false_iff_not, not_lt]
    exact h
  · unfold FaceSearcher.find_unknown_faces
    rw [List.mem_filter, List.mem_filter]
    constructor
    · rintro ⟨⟨hd, hf⟩, hc⟩
      exact ⟨hd, by simpa using hf, by simpa using hc⟩
    · rintro ⟨hd, hf, hc⟩
      exact ⟨⟨hd, by simpa using hf⟩, by simpa using hc⟩

/-- Witness for `is_unknown_total` at the spec's scenario values:
`face_count = 1` with matched ["Alice", "Bob"] (larger matched set returns
false), and a one-document collection. -/
theorem is_unknown_total_witness :
    0 ≤ (1 : ℤ)
    ∧ ((FaceSearcher.is_unknown 1 ["Alice", "Bob"] = true
          ↔ ((["Alice", "Bob"].length : ℕ) : ℤ) < 1)
        ∧ ((1 : ℤ) ≤ ((["Alice", "Bob"].length : ℕ) : ℤ) →
            FaceSearcher.is_unknown 1 ["Alice", "Bob"] = false)
        ∧ (∀ (docs : List FSDoc) (d : FSDoc),
            d ∈ FaceSearcher.find_unknown_faces docs ↔
              d ∈ docs ∧ d.has_faces = some true
                ∧ (FaceSearcher.matchedCount d : ℤ) < FaceSearcher.faceCount d)) :=
  ⟨by decide, is_unknown_total 1 ["Alice", "Bob"] (by decide)⟩

/-- C6 (search_by_photo modelled from the spec, the method being absent from
src/): empty image bytes short-circuit to the empty result list with an
empty collaborator-call trace — neither the embedder nor the store is
invoked, whatever the threshold and collaborators. -/
theorem search_by_photo_empty_bytes (c : Collabs) (t : ℚ) :
    search_by_photo c [] t = ([], []) := by
  simp [search_by_photo]

/-- C7 counterexample: the claim says every unequal-length pair fails with
DimensionMismatch, but the zero-norm guard runs first: the zero vector of
length 3 against an all-ones vector of length 5 returns 0.0 with no
error. -/
theorem cosine_mismatched_zero_no_error :
    [(0 : ℚ), 0, 0].length ≠ [(1 : ℚ), 1, 1, 1, 1].length
    ∧ cosine_similarity [0, 0, 0] [1, 1, 1, 1, 1] = Except.ok SimValue.zero := by
  refine ⟨by decide, ?_⟩
  have h : normSq [(0 : ℚ), 0, 0] = 0 := by norm_num [normSq, dot]
  unfold cosine_similarity
  rw [if_pos (Or.inl h)]

/-- C7 as amended: vectors of unequal length fail immediately with
DimensionMismatch (the ValueError `np.dot` raises) whenever both vectors
have nonzero norm; when either norm is zero the guard returns 0.0 before
the lengths are ever compared. -/
theorem cosine_mismatch_error (a b : List ℚ) (hlen : a.length ≠ b.length)
    (ha : normSq a ≠ 0) (hb : normSq b ≠ 0) :
    cosine_similarity a b = Except.error VecError.DimensionMismatch := by
  unfold cosine_similarity
  rw [if_neg (by tauto), if_neg hlen]

/-- Witness for `cosine_mismatch_error` at the vectors [1, 0] and
[1, 1, 1]. -/
theorem cosine_mismatch_error_witness :
    [(1 : ℚ), 0].length ≠ [(1 : ℚ), 1, 1].length
    ∧ normSq [(1 : ℚ), 0] ≠ 0 ∧ normSq [(1 : ℚ), 1, 1] ≠ 0
    ∧ cosine_similarity [1, 0] [1, 1, 1] = Except.error VecError.DimensionMismatch := by
  have ha : normSq [(1 : ℚ), 0] ≠ 0 := by norm_num [normSq, dot]
  have hb : normSq [(1 : ℚ), 1, 1] ≠ 0 := by norm_num [normSq, dot]
  exact ⟨by decide, ha, hb, cosine_mismatch_error [1, 0] [1, 1, 1] (by decide) ha hb⟩

/-- C8: cosine similarity is symmetric — for equal-length vectors the
returned value (exactly represented) is identical in both argument
orders. -/
theorem cosine_similarity_symm (a b : List ℚ) (hlen : a.length = b.length) :
    cosine_similarity a b = cosine_similarity b a := by
  unfold cosine_similarity
  by_cases h : normSq a = 0 ∨ normSq b = 0
  · rw [if_pos h, if_pos h.symm]
  · have h' : ¬ (normSq b = 0 ∨ normSq a = 0) := fun hc => h hc.symm
    rw [if_neg h, if_neg h', if_pos hlen, if_pos hlen.symm, dot_comm, mul_comm]

/-- Witness for `cosine_similarity_symm` at the vectors [1, 2] and
[3, 4]. -/
theorem cosine_similarity_symm_witness :
    [(1 : ℚ), 2].length = [(3 : ℚ), 4].length
    ∧ cosine_similarity [1, 2] [3, 4] = cosine_similarity [3, 4] [1, 2] :=
  ⟨by decide, cosine_similarity_symm [1, 2] [3, 4] (by decide)⟩

/-- C9: `to_jsonable` preserves structure and is total — a list maps
elementwise (same length and order), a dict maps to a dict with exactly the
same keys in the same order, ObjectId becomes its string form, bytes become
the base64 string, datetime becomes its ISO string, and scalar values pass
through unchanged. -/
theorem to_jsonable_structure :
    (∀ items : List PyVal,
      to_jsonable (PyVal.list items) = PyVal.list (items.map to_jsonable)
        ∧ (items.map to_jsonable).length = items.length)
    ∧ (∀ entries : List (String × PyVal),
        to_jsonable (PyVal.dict entries)
            = PyVal.dict (entries.map (fun kv => (kv.1, to_jsonable kv.2)))
          ∧ (entries.map (fun kv => (kv.1, to_jsonable kv.2))).map Prod.fst
              = entries.map Prod.fst)
    ∧ (∀ s, to_jsonable (PyVal.objectId s) = PyVal.str s)
    ∧ (∀ b, to_jsonable (PyVal.bytes b) = PyVal.str (base64Encode b))
    ∧ (∀ iso, to_jsonable (PyVal.datetime iso) = PyVal.str iso)
    ∧ (∀ s, to_jsonable (PyVal.str s) = PyVal.str s)
    ∧ (∀ n, to_jsonable (PyVal.int n) = PyVal.int n)
    ∧ (∀ b, to_jsonable (PyVal.bool b) = PyVal.bool b)
    ∧ to_jsonable PyVal.null = PyVal.null := by
  refine ⟨fun items => ⟨?_, List.length_map items to_jsonable⟩,
    fun entries => ⟨?_, ?_⟩, fun s => by rw [to_jsonable], fun b => by rw [to_jsonable],
    fun iso => by rw [to_jsonable], fun s => by rw [to_jsonable],
    fun n => by rw [to_jsonable], fun b => by rw [to_jsonable], by rw [to_jsonable]⟩
  · rw [to_jsonable]
    congr 1
    exact List.attach_map_val items to_jsonable
  · rw [to_jsonable]
    congr 1
    exact List.attach_map_val entries (fun kv => (kv.1, to_jsonable kv.2))
  · rw [List.map_map]
    rfl

/-- Every document the loop returns passed its `face_count > matched_count`
test. -/
theorem unknownLoop_mem_ok :
    ∀ (l out : List FSDocRaw), FaceSearcher.unknownLoop l = Except.ok out →
      ∀ d ∈ out, pyGtCount d.face_count (matchedCountRaw d) = Except.ok true
  | [], out, h => by
    rw [FaceSearcher.unknownLoop] at h
    cases h
    intro d hd
    exact absurd hd (List.not_mem_nil d)
  | c :: rest, out, h => by
    rw [FaceSearcher.unknownLoop] at h
    rcases hc : pyGtCount c.face_count (matchedCountRaw c) with e | b
    · rw [hc] at h
      cases h
    · rw [hc] at h
      cases b
      · intro d hd
        exact unknownLoop_mem_ok rest out h d hd
      · rcases hrest : FaceSearcher.unknownLoop rest with e | l'
        · rw [hrest] at h
          cases h
        · rw [hrest] at h
          cases h
          intro d hd
          rcases List.mem_cons.mp hd with rfl | hd'
          · exact hc
          · exact unknownLoop_mem_ok rest l' hrest d hd'

/-- The loop returns normally on every list whose documents all carry a
well-typed (absent or integer) `face_count`. -/
theorem unknownLoop_ok_of_welltyped :
    ∀ l : List FSDocRaw, (∀ d ∈ l, ∀ s, d.face_count ≠ FCField.strVal s) →
      ∃ out, FaceSearcher.unknownLoop l = Except.ok out
  | [], _ => ⟨[], rfl⟩
  | c :: rest, h => by
    obtain ⟨out, hout⟩ := unknownLoop_ok_of_welltyped rest
      (fun d hd => h d (List.mem_cons_of_mem c hd))
    have hb : ∃ b, pyGtCount c.face_count (matchedCountRaw c) = Except.ok b := by
      rcases hfc : c.face_count with _ | n | s
      · exact ⟨_, rfl⟩
      · exact ⟨_, rfl⟩
      · exact absurd hfc (h c (List.mem_cons_self c rest) s)
    obtain ⟨b, hbeq⟩ := hb
    rw [FaceSearcher.unknownLoop, hbeq]
    cases b
    · exact ⟨out, hout⟩
    · rw [hout]
      exact ⟨c :: out, rfl⟩

/-- The loop raises as soon as any listed document has a mistyped
`face_count`. -/
theorem unknownLoop_error_of_mem :
    ∀ (l : List FSDocRaw) (d : FSDocRaw), d ∈ l →
      (∃ s, d.face_count = FCField.strVal s) →
      ∃ e, FaceSearcher.unknownLoop l = Except.error e
  | [], d, hd, _ => absurd hd (List.not_mem_nil d)
  | c :: rest, d, hd, hs => by
    rw [FaceSearcher.unknownLoop]
    rcases List.mem_cons.mp hd with rfl | hd'
    · obtain ⟨s, hfc⟩ := hs
      rw [hfc]
      exact ⟨PyError.typeError, rfl⟩
    · obtain ⟨e, he⟩ := unknownLoop_error_of_mem rest d hd' hs
      rcases hc : pyGtCount c.face_count (matchedCountRaw c) with e' | b
      · exact ⟨e', rfl⟩
      · cases b
        · exact ⟨e, he⟩
        · rw [he]
          exact ⟨e, rfl⟩

/-- Loosely-typed document whose `face_count` field holds a string, on
which the comparison raises TypeError. -/
def exDocStrCount : FSDocRaw :=
  ⟨some "bad.jpg", some true, FCField.strVal "two", MPField.strs []⟩

/-- Loosely-typed document with no `face_count` field. -/
def exDocRawAbsent : FSDocRaw :=
  ⟨some "g.jpg", some true, FCField.absent, MPField.strs ["A"]⟩

/-- Loosely-typed document whose `matched_persons` field holds a non-list
value. -/
def exDocRawBadMatched : FSDocRaw :=
  ⟨some "h.jpg", some true, FCField.intVal 2, MPField.intVal 7⟩

/-- C10 counterexample: the claim says `find_unknown_faces` never raises on
mistyped fields, but `doc.get("face_count", 0)` is unguarded — on a
document whose `face_count` holds the string "two", the comparison
`face_count > matched_count` raises TypeError and the whole call fails. -/
theorem find_unknown_mistyped_count_raises :
    exDocStrCount.face_count = FCField.strVal "two"
    ∧ FaceSearcher.find_unknown_faces_raw [exDocStrCount]
        = Except.error PyError.typeError := ⟨rfl, rfl⟩

/-- C10 as amended: a document missing `face_count` is treated as count 0
and never reported unknown, a `matched_persons` field absent or not a list
counts zero matches, and the operation returns normally on every document
list whose `face_count` fields are absent or integers — but any document
with `has_faces` true whose `face_count` holds a non-integer value makes
the call raise TypeError, so it is not total over arbitrarily malformed
documents. -/
theorem find_unknown_malformed_behavior :
    (∀ (docs l : List FSDocRaw) (d : FSDocRaw),
        FaceSearcher.find_unknown_faces_raw docs = Except.ok l →
        d.face_count = FCField.absent → d ∉ l)
    ∧ (∀ (d : FSDocRaw) (n : ℤ),
        d.matched_persons = MPField.intVal n → matchedCountRaw d = 0)
    ∧ (∀ d : FSDocRaw, d.matched_persons = MPField.absent → matchedCountRaw d = 0)
    ∧ (∀ docs : List FSDocRaw,
        (∀ d ∈ docs, ∀ s, d.face_count ≠ FCField.strVal s) →
        ∃ l, FaceSearcher.find_unknown_faces_raw docs = Except.ok l)
    ∧ (∀ (docs : List FSDocRaw) (d : FSDocRaw), d ∈ docs →
        d.has_faces = some true → (∃ s, d.face_count = FCField.strVal s) →
        ∃ e, FaceSearcher.find_unknown_faces_raw docs = Except.error e) := by
  refine ⟨fun docs l d hok hfc hmem => ?_, fun d n h => ?_, fun d h => ?_,
    fun docs h => ?_, fun docs d hd hf hs => ?_⟩
  · have := unknownLoop_mem_ok _ l hok d hmem
    rw [hfc] at this
    simp [pyGtCount] at this
    omega
  · unfold matchedCountRaw
    rw [h]
  · unfold matchedCountRaw
    rw [h]
  · exact unknownLoop_ok_of_welltyped _ (fun d hd =>
      h d (List.mem_filter.mp hd).1)
  · refine unknownLoop_error_of_mem _ d ?_ hs
    exact List.mem_filter.mpr ⟨hd, by simp [hf]⟩

/-- Witness for `find_unknown_malformed_behavior`: a document without a
`face_count` field is not in the (normal) result, a mistyped
`matched_persons` counts zero matches, a well-typed collection returns
normally, and the string-valued `face_count` document raises. -/
theorem find_unknown_malformed_behavior_witness :
    (FaceSearcher.find_unknown_faces_raw [exDocRawAbsent] = Except.ok []
      ∧ exDocRawAbsent.face_count = FCField.absent
      ∧ exDocRawAbsent ∉ ([] : List FSDocRaw))
    ∧ (exDocRawBadMatched.matched_persons = MPField.intVal 7
      ∧ matchedCountRaw exDocRawBadMatched = 0)
    ∧ (∃ l, FaceSearcher.find_unknown_faces_raw [exDocRawAbsent] = Except.ok l)
    ∧ (∃ e, FaceSearcher.find_unknown_faces_raw [exDocStrCount]
        = Except.error e) :=
  ⟨⟨rfl, rfl, find_unknown_malformed_behavior.1 [exDocRawAbsent] [] exDocRawAbsent rfl rfl⟩,
    ⟨rfl, find_unknown_malformed_behavior.2.1 exDocRawBadMatched 7 rfl⟩,
    find_unknown_malformed_behavior.2.2.2.1 [exDocRawAbsent]
      (fun d hd s => by
        rcases List.mem_singleton.mp hd with rfl
        exact fun h => FCField.noConfusion h),
    find_unknown_malformed_behavior.2.2.2.2 [exDocStrCount] exDocStrCount
      (List.mem_singleton.mpr rfl) rfl ⟨"two", rfl⟩⟩

end CCTV
